import Mathlib

/-!
Verification development for the Alaska fast-track promo finder
(`alaska_promo_finder.py`). The Python module is shallowly embedded:

* HTML/JSON payloads of a fetched page are represented by a `Page` value
  carrying the raw body text, the parsed `application/json` script payloads
  (with `none` standing for a `json.JSONDecodeError`), and the visible text
  produced by `soup.get_text()`.
* The `requests` session is an oracle `fetch : String → FetchResult`; a
  raised `RequestException` is `FetchResult.err`.
* `datetime` values are integer timestamps; `datetime.fromisoformat` and
  `strftime` are oracle fields of `Env`; `datetime.now().astimezone()` is
  `Env.now` and `datetime.now().isoformat()` is `Env.nowIso`.
* The fixed regular expressions of the source are implemented directly as
  specialised matchers with Python `re` semantics (leftmost match, lazy or
  greedy quantifiers as written, `.` not matching a newline).
-/

/-- JSON values as produced by `json.loads`. Numbers are integers, which
covers every payload the claims exercise. -/
inductive Json where
  | null : Json
  | bool (b : Bool) : Json
  | num (n : Int) : Json
  | str (s : String) : Json
  | arr (xs : List Json) : Json
  | obj (fields : List (String × Json)) : Json

/-- Python truthiness of a JSON value. -/
def Json.truthy : Json → Bool
  | .null => false
  | .bool b => b
  | .num n => n != 0
  | .str s => s != ""
  | .arr xs => !xs.isEmpty
  | .obj fs => !fs.isEmpty

/-- Substring test on character lists, Python `needle in hay`. -/
def containsList (needle : List Char) : List Char → Bool
  | [] => needle.isEmpty
  | c :: t => needle.isPrefixOf (c :: t) || containsList needle t

/-- Substring test on strings, Python `needle in hay`. -/
def containsStr (needle hay : String) : Bool :=
  containsList needle.toList hay.toList

/-- ASCII lowering of a string, Python `str.lower` on the ASCII texts the
program handles. -/
def lowerStr (s : String) : String :=
  String.mk (s.toList.map Char.toLower)

/-- Python `x in j` on a JSON value: key test for objects, membership for
arrays, substring for strings; a `TypeError` (modelled as `.error`) on the
remaining scalars. -/
def pyIn (k : String) (j : Json) : Except Unit Bool :=
  match j with
  | .obj fs => .ok (fs.any (fun kv => kv.1 == k))
  | .arr xs => .ok (xs.any (fun x => match x with | .str s => s == k | _ => false))
  | .str s => .ok (containsStr k s)
  | _ => .error ()

/-- Python `j[k]`: only objects support string indexing; the source only
indexes after a successful `k in j` guard, so the missing-key case is
unreachable there. Non-objects raise a `TypeError`. -/
def pyIndex (j : Json) (k : String) : Except Unit Json :=
  match j with
  | .obj fs =>
    match fs.lookup k with
    | some v => .ok v
    | none => .error ()
  | _ => .error ()

/-- Python `j.get(k, d)`: an `AttributeError` (modelled as `.error`) when
`j` is not a dict. -/
def pyGet (j : Json) (k : String) (d : Json) : Except Unit Json :=
  match j with
  | .obj fs => .ok ((fs.lookup k).getD d)
  | _ => .error ()

/-- Field lookup on a JSON object, `none` when absent or not an object. -/
def jsonLookup (j : Json) (k : String) : Option Json :=
  match j with
  | .obj fs => fs.lookup k
  | _ => none

/-- Python whitespace class for the regex escape on ASCII text. -/
def isWsPy (c : Char) : Bool :=
  c == ' ' || c == '\t' || c == '\n' || c == '\r' || c == '\x0b' || c == '\x0c'

/-- Word characters of the regex escape on ASCII text. -/
def wordChar (c : Char) : Bool :=
  c.isAlphanum || c == '_'

/-- Maximal run of word characters at the front, with the remainder. -/
def wordRun : List Char → List Char × List Char
  | [] => ([], [])
  | c :: t =>
    if wordChar c then
      let (r, rest) := wordRun t
      (c :: r, rest)
    else ([], c :: t)

/-- Drop a maximal run of whitespace. -/
def dropWsAll : List Char → List Char
  | [] => []
  | c :: t => if isWsPy c then dropWsAll t else c :: t

/-- Require at least one whitespace character, then skip the whole run. -/
def dropWs1 : List Char → Option (List Char)
  | [] => none
  | c :: t => if isWsPy c then some (dropWsAll t) else none

/-- Case-insensitive literal at the front of the text; the literal is given
in lowercase. Returns the remainder of the text. -/
def litPrefixCI : List Char → List Char → Option (List Char)
  | [], cs => some cs
  | _ :: _, [] => none
  | l :: lt, c :: ct => if c.toLower == l then litPrefixCI lt ct else none

/-- Case-sensitive literal at the front of the text, with the remainder. -/
def litP (lit cs : List Char) : Option (List Char) :=
  if lit.isPrefixOf cs then some (cs.drop lit.length) else none

/-! ### The expiration-date regex

`re.search(r'promotion ended.*?on\s+(\d{1,2}/\d{1,2}/\d{4})', text, re.IGNORECASE)`
specialised: leftmost start, lazy gap not crossing a newline, greedy but
backtrack-free numeric parts (digits and the separators are disjoint). -/

/-- Match `\d{1,2}/` at the front: two digits then a slash, else one digit
then a slash. Returns the matched characters (slash included) and the rest. -/
def d12slash : List Char → Option (List Char × List Char)
  | a :: b :: c :: t =>
    if a.isDigit then
      if b.isDigit then
        if c == '/' then some ([a, b, c], t) else none
      else if b == '/' then some ([a, b], c :: t) else none
    else none
  | [a, b] => if a.isDigit && b == '/' then some ([a, b], []) else none
  | _ => none

/-- Match `\d{4}` at the front. -/
def d4 : List Char → Option (List Char × List Char)
  | a :: b :: c :: d :: t =>
    if a.isDigit && b.isDigit && c.isDigit && d.isDigit then some ([a, b, c, d], t)
    else none
  | _ => none

/-- Match the capture group `(\d{1,2}/\d{1,2}/\d{4})` at the front. -/
def matchDateCap (cs : List Char) : Option (List Char) :=
  match d12slash cs with
  | none => none
  | some (p1, r1) =>
    match d12slash r1 with
    | none => none
    | some (p2, r2) =>
      match d4 r2 with
      | none => none
      | some (p3, _) => some (p1 ++ p2 ++ p3)

/-- Match `on\s+(\d{1,2}/\d{1,2}/\d{4})` at the front, case-insensitively,
returning the capture. -/
def matchOnDate (cs : List Char) : Option (List Char) :=
  match litPrefixCI ['o', 'n'] cs with
  | none => none
  | some r1 =>
    match dropWs1 r1 with
    | none => none
    | some r2 => matchDateCap r2

/-- Lazy gap `.*?` followed by a completion: try the completion at the
current position first, then skip one non-newline character and retry. -/
def lazyGapG (comp : List Char → Option (List Char)) : List Char → Option (List Char)
  | [] => comp []
  | c :: t =>
    match comp (c :: t) with
    | some r => some r
    | none => if c == '\n' then none else lazyGapG comp t

/-- Scan for the leftmost start position where the phrase
`promotion ended` (case-insensitive) is followed, across a lazy gap, by
`on\s+` and a date; returns the captured date characters. -/
def searchExpDate : List Char → Option (List Char)
  | [] => none
  | c :: t =>
    match litPrefixCI "promotion ended".toList (c :: t) with
    | some r =>
      match lazyGapG matchOnDate r with
      | some cap => some cap
      | none => searchExpDate t
    | none => searchExpDate t

/-- `expiration_match.group(1)` of line 154: the date captured by the
expiration regex, `none` when `re.search` finds no match. -/
def expirationCapture (text : String) : Option String :=
  (searchExpDate text.toList).map String.mk

/-! ### The organization-name regexes (methods 2 and 3, lines 101-127)

These run over `soup.get_text().lower()`, so the literals are matched
case-sensitively in lowercase. -/

/-- Match `@(\w+)\.<dom>` at the front, returning the captured word run. -/
def matchEmailAt (dom : List Char) (cs : List Char) : Option (List Char) :=
  match cs with
  | '@' :: t =>
    let (r, rest) := wordRun t
    if !r.isEmpty && dom.isPrefixOf rest then some r else none
  | _ => none

/-- Match `university\s+of\s+(\w+)` at the front. -/
def matchUnivOfAt (cs : List Char) : Option (List Char) :=
  match litP "university".toList cs with
  | none => none
  | some r1 =>
    match dropWs1 r1 with
    | none => none
    | some r2 =>
      match litP ['o', 'f'] r2 with
      | none => none
      | some r3 =>
        match dropWs1 r3 with
        | none => none
        | some r4 =>
          let (w, _) := wordRun r4
          if w.isEmpty then none else some w

/-- Match `(\w+)\s+university` at the front. -/
def matchWUnivAt (cs : List Char) : Option (List Char) :=
  let (w, rest) := wordRun cs
  if w.isEmpty then none
  else
    match dropWs1 rest with
    | none => none
    | some r2 =>
      match litP "university".toList r2 with
      | none => none
      | some _ => some w

/-- Leftmost match of a front-anchored matcher: try every start position
from the left. -/
def searchPat (m : List Char → Option (List Char)) : List Char → Option (List Char)
  | [] => none
  | c :: t =>
    match m (c :: t) with
    | some r => some r
    | none => searchPat m t

/-- Greedy `([^,]+)<lit>`: walk the non-comma run from the current start,
remembering the furthest boundary where the literal begins; the capture is
everything before that boundary (greedy, so the last such boundary wins). -/
def greedyGo (lit : List Char) (acc : List Char) (best : Option (List Char)) :
    List Char → Option (List Char)
  | [] => best
  | c :: t =>
    let best' := if !acc.isEmpty && lit.isPrefixOf (c :: t) then some acc.reverse else best
    if c == ',' then best' else greedyGo lit (c :: acc) best' t

/-- Match `([^,]+)<lit>` at the front. -/
def matchCapLit (lit : List Char) (cs : List Char) : Option (List Char) :=
  greedyGo lit [] none cs

/-- Maximal run of non-comma characters at the front. -/
def nonCommaRun : List Char → List Char
  | [] => []
  | x :: xs => if x == ',' then [] else x :: nonCommaRun xs

/-- Match `only.*?members who work at ([^,]+)` at the front: the capture is
the greedy non-comma run after the literal (nothing follows it in the
pattern, so no backtracking on the capture). -/
def matchOnlyAt (cs : List Char) : Option (List Char) :=
  match litP "only".toList cs with
  | none => none
  | some r =>
    lazyGapG
      (fun cs2 =>
        match litP "members who work at ".toList cs2 with
        | none => none
        | some r2 =>
          match nonCommaRun r2 with
          | [] => none
          | c :: t => some (c :: t))
      r

/-- Python `str.title`: uppercase each letter not preceded by a letter,
lowercase the others. -/
def titleGo : Bool → List Char → List Char
  | _, [] => []
  | prevAlpha, c :: t =>
    if c.isAlpha then (if prevAlpha then c.toLower else c.toUpper) :: titleGo true t
    else c :: titleGo false t

/-- Python `str.title`. -/
def pyTitle (s : String) : String :=
  String.mk (titleGo false s.toList)

/-- Python `str.strip` for ASCII whitespace. -/
def pyStrip (s : String) : String :=
  String.mk (((s.toList.dropWhile isWsPy).reverse.dropWhile isWsPy).reverse)

/-! ### Data model -/

/-- One fetched HTML page: the raw body (`response.text`), the parsed
payloads of the `application/json` script elements in document order
(`none` marks a payload `json.loads` rejects), and the visible text
`soup.get_text()`. -/
structure Page where
  text : String
  scripts : List (Option Json)
  visible : String

/-- Outcome of `session.get`: a raised `RequestException`, or a response
with a status code and a body. -/
inductive FetchResult where
  | err : FetchResult
  | resp (status : Nat) (page : Page) : FetchResult

/-- The ambient effects of one run: the network oracle, the current moment
(`datetime.now().astimezone()` as a timestamp), its ISO rendering
(`datetime.now().isoformat()`), `datetime.fromisoformat` on
timezone-aware strings (with `none` for a `ValueError`), and
`strftime` with pattern MM/DD/YYYY. -/
structure Env where
  fetch : String → FetchResult
  now : Int
  nowIso : String
  parseISO : String → Option Int
  fmtDate : Int → String

/-- The record built at lines 183-192; `expiration_date` is `none` exactly
when the Python dict lacks the key. -/
structure PromoRecord where
  promo_code : String
  url : String
  company_name : Option Json
  found_date : String
  status : String
  expiration_date : Option String

/-- The in-memory `self.results` dict: insertion-ordered pairs with unique
keys. -/
abbrev Store : Type := List (String × PromoRecord)

/-- Python dict assignment `d[k] = v`: overwrite in place or append. -/
def dictInsert (k : String) (v : PromoRecord) : Store → Store
  | [] => [(k, v)]
  | (k', v') :: t => if k' == k then (k, v) :: t else (k', v') :: dictInsert k v t

/-- `self.base_url` of line 24. -/
def base_url : String := "https://www.alaskaair.com/promo/"

/-! ### extract_company_name (lines 77-132) -/

/-- Method 1 body for one parsed script payload (lines 86-97).
`.error` is an uncaught `TypeError`/`AttributeError` escaping the inner
`except (json.JSONDecodeError, KeyError)`; `.ok none` means no truthy
company name in this payload; `.ok (some v)` is an early return. -/
def scriptCompany (data : Json) : Except Unit (Option Json) :=
  match pyIn "props" data with
  | .error e => .error e
  | .ok false => .ok none
  | .ok true =>
    match pyIndex data "props" with
    | .error e => .error e
    | .ok props =>
      match pyIn "pageProps" props with
      | .error e => .error e
      | .ok false => .ok none
      | .ok true =>
        match pyIndex props "pageProps" with
        | .error e => .error e
        | .ok pageProps =>
          match pyGet pageProps "content" (.obj []) with
          | .error e => .error e
          | .ok content =>
            match pyGet content "company_name" .null with
            | .error e => .error e
            | .ok cn =>
              if cn.truthy then .ok (some cn)
              else
                match pyGet pageProps "promo_data" (.obj []) with
                | .error e => .error e
                | .ok promoData =>
                  match pyGet promoData "company_name" .null with
                  | .error e => .error e
                  | .ok cn2 => if cn2.truthy then .ok (some cn2) else .ok none

/-- Outcome of the method-1 loop over all scripts. -/
inductive M1Result where
  | found (v : Json) : M1Result
  | abort : M1Result
  | nothing : M1Result

/-- The method-1 loop: skip unparseable payloads, return the first truthy
company name, and abort the whole extraction (the outer
`except Exception` at line 129 returns `None`) on an uncaught error. -/
def method1 : List (Option Json) → M1Result
  | [] => .nothing
  | none :: rest => method1 rest
  | some d :: rest =>
    match scriptCompany d with
    | .error _ => .abort
    | .ok (some v) => .found v
    | .ok none => method1 rest

/-- Method 2 (lines 101-114): the five patterns in order on the lowered
visible text; the first pattern with a match wins and its first capture is
title-cased. -/
def method2 (t : List Char) : Option String :=
  (((((searchPat (matchEmailAt ".edu".toList) t).orElse
      (fun _ => searchPat (matchEmailAt ".com".toList) t)).orElse
      (fun _ => searchPat (matchEmailAt ".org".toList) t)).orElse
      (fun _ => searchPat matchUnivOfAt t)).orElse
      (fun _ => searchPat matchWUnivAt t)).map
    (fun cs => pyTitle (String.mk cs))

/-- Method 3 (lines 116-127): the four phrase-anchored patterns in order;
the first capture is stripped and title-cased. -/
def method3 (t : List Char) : Option String :=
  ((((searchPat matchOnlyAt t).orElse
     (fun _ => searchPat (matchCapLit " discover a quicker way".toList) t)).orElse
     (fun _ => searchPat (matchCapLit " employees".toList) t)).orElse
     (fun _ => searchPat (matchCapLit " staff".toList) t)).map
    (fun cs => pyTitle (pyStrip (String.mk cs)))

/-- `extract_company_name` (lines 77-132): structured data first, then the
email/university patterns, then the phrase-anchored patterns; an uncaught
exception in method 1 short-circuits the whole extraction to `None`. -/
def extract_company_name (page : Page) : Option Json :=
  match method1 page.scripts with
  | .found v => some v
  | .abort => none
  | .nothing =>
    let t := (lowerStr page.visible).toList
    match method2 t with
    | some s => some (.str s)
    | none =>
      match method3 t with
      | some s => some (.str s)
      | none => none

/-! ### check_promo_url (lines 134-206) -/

/-- `'fast track' in text.lower() or 'mileage plan' in text.lower()`
(line 143). -/
def markerOk (text : String) : Bool :=
  containsStr "fast track" (lowerStr text) || containsStr "mileage plan" (lowerStr text)

/-- `'promotion ended' in text.lower() or 'expired' in text.lower()`
(line 151). -/
def expiredPhrase (text : String) : Bool :=
  containsStr "promotion ended" (lowerStr text) || containsStr "expired" (lowerStr text)

/-- Python truthiness of the `expiration_info` variable. -/
def optStrTruthy : Option String → Bool
  | none => false
  | some s => s != ""

/-- `end_date.replace('Z', '+00:00')` (line 171). -/
def replaceZGo : List Char → List Char
  | [] => []
  | 'Z' :: t => '+' :: '0' :: '0' :: ':' :: '0' :: '0' :: replaceZGo t
  | c :: t => c :: replaceZGo t

/-- `end_date.replace('Z', '+00:00')`. -/
def pyReplaceZ (s : String) : String :=
  String.mk (replaceZGo s.toList)

/-- One iteration of the end-date loop (lines 162-179) over the running
pair (status, expiration_info). `.error` is an exception escaping to the
outer `except Exception: pass` of line 180. -/
def scriptEndDate (env : Env) (data : Json) (st : String × Option String) :
    Except Unit (String × Option String) :=
  match pyIn "props" data with
  | .error e => .error e
  | .ok false => .ok st
  | .ok true =>
    match pyIndex data "props" with
    | .error e => .error e
    | .ok props =>
      match pyIn "pageProps" props with
      | .error e => .error e
      | .ok false => .ok st
      | .ok true =>
        match pyIndex props "pageProps" with
        | .error e => .error e
        | .ok pageProps =>
          match pyGet pageProps "promo_data" (.obj []) with
          | .error e => .error e
          | .ok promoData =>
            match pyGet promoData "end_date" .null with
            | .error e => .error e
            | .ok endDate =>
              if endDate.truthy then
                match endDate with
                | .str s =>
                  match env.parseISO (pyReplaceZ s) with
                  | some t =>
                    if t < env.now then
                      .ok ("expired", if optStrTruthy st.2 then st.2 else some (env.fmtDate t))
                    else .ok st
                  | none => .ok st
                | _ => .error ()
              else .ok st

/-- The end-date loop over all scripts: unparseable payloads are skipped;
an uncaught exception leaves the loop with the current pair (the outer
handler is `pass`). -/
def scanScripts (env : Env) : List (Option Json) → String × Option String →
    String × Option String
  | [], st => st
  | none :: rest, st => scanScripts env rest st
  | some d :: rest, st =>
    match scriptEndDate env d st with
    | .error _ => st
    | .ok st' => scanScripts env rest st'

/-- The record assembled for a valid promo page (lines 144-192). -/
def buildRecord (env : Env) (code : String) (page : Page) : PromoRecord :=
  let st1 : String × Option String :=
    if expiredPhrase page.text then ("expired", expirationCapture page.text)
    else ("active", none)
  let st2 := scanScripts env page.scripts st1
  ⟨code, base_url ++ code, extract_company_name page, env.nowIso, st2.1, st2.2⟩

/-- Classify one fetch outcome (lines 139-206). -/
def check_resp (env : Env) (code : String) : FetchResult → Option PromoRecord
  | .err => none
  | .resp status page =>
    if status == 200 then
      if markerOk page.text then some (buildRecord env code page) else none
    else none

/-- `check_promo_url` (lines 134-206): `none` on a network error, a
non-200 status, or a 200 body without a marker phrase. -/
def check_promo_url (env : Env) (code : String) : Option PromoRecord :=
  check_resp env code (env.fetch code)

/-- A fetch outcome that line 141-143 accepts as a genuine promo page. -/
def isPromoResp : FetchResult → Bool
  | .err => false
  | .resp status page => status == 200 && markerOk page.text

/-! ### generate_promo_codes (lines 67-75) and search_promos (lines 208-246) -/

/-- `f"{i:02}"` for `i` below 100. -/
def pad2 (i : Nat) : String :=
  if i < 10 then "0" ++ toString i else toString i

/-- The fixed prefix list of line 70. -/
def prefixes : List String := ["AS23", "CS23", "AS24", "CS24", "AS25", "CS25"]

/-- `generate_promo_codes`: every prefix, then every zero-padded two-digit
suffix, in the nested-loop order of lines 71-74. -/
def generate_promo_codes : List String :=
  prefixes.flatMap (fun p => ((List.range 100).map pad2).map (fun c => p ++ c))

/-- The `start_from` slice of lines 212-218: a falsy value (absent or the
empty string) performs no slicing; an unknown code logs a warning and keeps
the full sequence; otherwise the list is dropped up to the first index of
the code. -/
def applyStart (startFrom : Option String) (codes : List String) : List String :=
  match startFrom with
  | none => codes
  | some s =>
    if s == "" then codes
    else
      match codes.findIdx? (fun c => c == s) with
      | some i => codes.drop i
      | none => codes

/-- Python `codes[:m]` for an integer bound. -/
def pySliceTo (m : Int) (codes : List String) : List String :=
  if 0 ≤ m then codes.take m.toNat else codes.take (codes.length - (-m).toNat)

/-- The `max_codes` truncation of lines 220-221: the branch tests
truthiness, so an absent bound and a zero bound both keep the whole list. -/
def applyMax (maxCodes : Option Int) (codes : List String) : List String :=
  match maxCodes with
  | none => codes
  | some m => if m == 0 then codes else pySliceTo m codes

/-- The candidate sequence a scan iterates over. -/
def scannedCodes (maxCodes : Option Int) (startFrom : Option String) : List String :=
  applyMax maxCodes (applyStart startFrom generate_promo_codes)

/-- One loop iteration of lines 226-243: skip codes already recorded,
otherwise fetch and record a returned result. -/
def scanStep (env : Env) (s : Store) (code : String) : Store :=
  if (s.lookup code).isSome then s
  else
    match check_promo_url env code with
    | some r => dictInsert code r s
    | none => s

/-- `search_promos`: the final in-memory store after the scan loop. -/
def search_promos (env : Env) (maxCodes : Option Int) (startFrom : Option String)
    (s0 : Store) : Store :=
  (scannedCodes maxCodes startFrom).foldl (scanStep env) s0

/-! ### save_results / load_results (lines 47-65)

`json.dump` and `json.load` are modelled at the level of the JSON value
written to and parsed back from the file; the store is serialised field by
field exactly as the record dict of lines 183-192 is laid out. -/

/-- The value stored under the `company_name` key: `None` serialises to
JSON null. -/
def companyToJson : Option Json → Json
  | none => .null
  | some v => v

/-- The record dict as a JSON object: the five unconditional keys in
insertion order, then `expiration_date` only when it was set (line 191). -/
def recordToJson (r : PromoRecord) : Json :=
  .obj ([("promo_code", .str r.promo_code),
         ("url", .str r.url),
         ("company_name", companyToJson r.company_name),
         ("found_date", .str r.found_date),
         ("status", .str r.status)] ++
        (match r.expiration_date with
         | none => []
         | some e => [("expiration_date", .str e)]))

/-- `save_results`: the JSON object written to the results file. -/
def save_results (s : Store) : Json :=
  .obj (s.map (fun kv => (kv.1, recordToJson kv.2)))

/-- Read a string field back. -/
def asStr : Option Json → Option String
  | some (.str s) => some s
  | _ => none

/-- Read one record dict back from its JSON object. -/
def recordOfJson (j : Json) : Option PromoRecord :=
  match asStr (jsonLookup j "promo_code"), asStr (jsonLookup j "url"),
        jsonLookup j "company_name", asStr (jsonLookup j "found_date"),
        asStr (jsonLookup j "status") with
  | some pc, some u, some cn, some fd, some st =>
    let company : Option Json := match cn with | .null => none | v => some v
    match jsonLookup j "expiration_date" with
    | none => some ⟨pc, u, company, fd, st, none⟩
    | some (.str e) => some ⟨pc, u, company, fd, st, some e⟩
    | some _ => none
  | _, _, _, _, _ => none

/-- Read the whole store back, preserving key order. -/
def decFields : List (String × Json) → Option Store
  | [] => some []
  | (k, v) :: t =>
    match recordOfJson v, decFields t with
    | some r, some rest => some ((k, r) :: rest)
    | _, _ => none

/-- `load_results`: parse the persisted JSON object back into the store. -/
def load_results (j : Json) : Option Store :=
  match j with
  | .obj fs => decFields fs
  | _ => none

/-- The claims about the store restrict records to string or
optional-string fields: the company name, when present, is a JSON string. -/
def companyIsStr : Option Json → Bool
  | none => true
  | some (.str _) => true
  | some _ => false

/-! ### Auxiliary predicates used to state the claims -/

/-- Any of the method-2 (email-domain / university) patterns matches. -/
def emailUnivMatch (t : List Char) : Bool :=
  (searchPat (matchEmailAt ".edu".toList) t).isSome ||
  (searchPat (matchEmailAt ".com".toList) t).isSome ||
  (searchPat (matchEmailAt ".org".toList) t).isSome ||
  (searchPat matchUnivOfAt t).isSome ||
  (searchPat matchWUnivAt t).isSome

/-- The `props.pageProps.promo_data.end_date` string of a payload, when
present. -/
def promoEndDate (d : Json) : Option String :=
  match jsonLookup d "props" with
  | none => none
  | some props =>
    match jsonLookup props "pageProps" with
    | none => none
    | some pp =>
      match jsonLookup pp "promo_data" with
      | none => none
      | some pd =>
        match jsonLookup pd "end_date" with
        | some (.str s) => some s
        | _ => none

/-- The script payload carries an end date parsing strictly into the
future. -/
def scriptFutureEndDate (env : Env) : Option Json → Bool
  | none => false
  | some d =>
    match promoEndDate d with
    | none => false
    | some s =>
      match env.parseISO (pyReplaceZ s) with
      | some t => decide (env.now < t)
      | none => false

/-- The script payload would push a fresh (active, no date) pair to
expired: exactly the condition of lines 167-173 on one script. -/
def scriptPastEndDate (env : Env) : Option Json → Bool
  | none => false
  | some d =>
    match scriptEndDate env d ("active", none) with
    | .ok ("expired", _) => true
    | _ => false

/-- Map a generated code back to its position: prefix rank times 100 plus
the numeric suffix. -/
def codeIndex (s : String) : Nat :=
  let cs := s.toList
  (prefixes.findIdx (fun p => p == String.mk (cs.take 4))) * 100 +
    (cs.drop 4).foldl (fun a c => a * 10 + (c.toNat - 48)) 0

/-! ### Concrete sample values for the witnesses and the counterexample -/

/-- The structured-data block of the spec scenario for claims C4/C5. -/
def acmeJson : Json :=
  .obj [("props", .obj [("pageProps", .obj
    [("content", .obj [("company_name", .str "Acme Corp")])])])]

/-- A structured-data block with a future end date. -/
def futureJson : Json :=
  .obj [("props", .obj [("pageProps", .obj
    [("promo_data", .obj [("end_date", .str "2099-01-01T00:00:00Z")])])])]

/-- A structured-data block with a past end date. -/
def pastJson : Json :=
  .obj [("props", .obj [("pageProps", .obj
    [("promo_data", .obj [("end_date", .str "2020-01-01T00:00:00Z")])])])]

/-- Page for the C1 counterexample: the word `expired` appears, the
date regex cannot match, and the only script has a future end date. -/
def pageC1 : Page :=
  ⟨"Alaska Mileage Plan offer. This promotion has expired.", [some futureJson], ""⟩

/-- Environment for the C1 counterexample: the future end date parses to
a timestamp after `now`. -/
def envC1 : Env :=
  ⟨fun c => if c == "AS2300" then .resp 200 pageC1 else .err,
   1000, "2026-01-01T00:00:00",
   fun s => if s == "2099-01-01T00:00:00+00:00" then some 2000 else none,
   fun _ => "01/01/2099"⟩

/-- Page for the C3 witness: explicit ended-on phrase and a past
structured end date. -/
def pageC3 : Page :=
  ⟨"Mileage Plan deal. This promotion ended on 1/2/2024.", [some pastJson], ""⟩

/-- Environment for the C3 witness: the structured date parses to a past
timestamp whose MM/DD/YYYY rendering differs from the captured string. -/
def envC3 : Env :=
  ⟨fun c => if c == "AS2302" then .resp 200 pageC3 else .err,
   1000, "2026-01-01T00:00:00",
   fun s => if s == "2020-01-01T00:00:00+00:00" then some 100 else none,
   fun _ => "01/01/2020"⟩

/-- Page for the C4 witness: the spec scenario page. -/
def pageC4 : Page :=
  ⟨"Your Mileage Plan fast lane awaits.", [some acmeJson], ""⟩

/-- Environment for the C4 witness. -/
def envC4 : Env :=
  ⟨fun c => if c == "AS2301" then .resp 200 pageC4 else .err,
   0, "2026-02-03T00:00:00", fun _ => none, fun _ => ""⟩

/-- Page for the C5 witness: structured data and an email-domain match. -/
def pageC5 : Page :=
  ⟨"", [some acmeJson], "reach us at hr @acme.com today"⟩

/-- A record already present before a scan, for the C7 witness. -/
def recC7 : PromoRecord :=
  ⟨"AS2300", "https://www.alaskaair.com/promo/AS2300", none,
   "2026-01-01T00:00:00", "active", none⟩

/-- Environment for the C7 witness: every fetch fails. -/
def envC7 : Env := ⟨fun _ => .err, 0, "t", fun _ => none, fun _ => ""⟩

/-- A store that already holds AS2300 before the C7 witness scan. -/
def storeC7 : Store := [("AS2300", recC7)]

/-- The store round-trip sample for the C8 witness. -/
def recC8 : PromoRecord :=
  ⟨"AS2300", "https://www.alaskaair.com/promo/AS2300", some (.str "Acme Corp"),
   "2026-01-01T00:00:00", "expired", some "1/2/2024"⟩

/-- The store round-trip sample for the C8 witness. -/
def storeC8 : Store := [("AS2300", recC8)]

/-- A page whose fetch yields a 404 for the C9 witness. -/
def pageC9 : Page := ⟨"Not found", [], ""⟩

/-- Environment for the C9 witness: code AS2399 resolves with status 404. -/
def envC9 : Env :=
  ⟨fun c => if c == "AS2399" then .resp 404 pageC9 else .err,
   0, "t", fun _ => none, fun _ => ""⟩

/-! ### Helper lemmas -/

/-- One end-date iteration either leaves the running pair unchanged or
moves the status to `expired`, never touching a truthy expiration string. -/
theorem scriptEndDate_ok_char (env : Env) (d : Json) (st r : String × Option String)
    (h : scriptEndDate env d st = .ok r) :
    r = st ∨ (r.1 = "expired" ∧ (optStrTruthy st.2 = true → r.2 = st.2)) := by
  unfold scriptEndDate at h
  repeat' split at h
  all_goals cases h
  all_goals try (exact Or.inl rfl)
  all_goals refine Or.inr ⟨rfl, fun ht => ?_⟩
  all_goals simp_all

/-- The end-date loop never moves a status away from `expired`. -/
theorem scanScripts_status (env : Env) (l : List (Option Json)) :
    ∀ st : String × Option String, st.1 = "expired" → (scanScripts env l st).1 = "expired" := by
  induction l with
  | nil => intro st h; exact h
  | cons o rest ih =>
    intro st h
    cases o with
    | none => exact ih st h
    | some d =>
      simp only [scanScripts]
      cases hE : scriptEndDate env d st with
      | error e => exact h
      | ok r =>
        rcases scriptEndDate_ok_char env d st r hE with h1 | h2
        · rw [h1]; exact ih st h
        · exact ih r h2.1

/-- The end-date loop never overwrites a truthy expiration string. -/
theorem scanScripts_keepExp (env : Env) (l : List (Option Json)) :
    ∀ st : String × Option String, optStrTruthy st.2 = true →
      (scanScripts env l st).2 = st.2 := by
  induction l with
  | nil => intro st _; rfl
  | cons o rest ih =>
    intro st h
    cases o with
    | none => exact ih st h
    | some d =>
      simp only [scanScripts]
      cases hE : scriptEndDate env d st with
      | error e => rfl
      | ok r =>
        rcases scriptEndDate_ok_char env d st r hE with h1 | h2
        · rw [h1]; exact ih st h
        · have hr2 : r.2 = st.2 := h2.2 h
          rw [ih r (by rw [hr2]; exact h), hr2]

/-- A record comes back from `check_promo_url` exactly when the fetch
outcome is a 200 response carrying a marker phrase. -/
theorem check_isSome (env : Env) (c : String) :
    (check_promo_url env c).isSome = isPromoResp (env.fetch c) := by
  unfold check_promo_url check_resp isPromoResp
  cases env.fetch c with
  | err => rfl
  | resp st page =>
    cases hst : st == 200 <;> cases hm : markerOk page.text <;> simp [hst, hm]

/-- Lookup after a Python dict assignment. -/
theorem dictInsert_lookup (a c : String) (v : PromoRecord) :
    ∀ s : Store, (dictInsert a v s).lookup c = if c = a then some v else s.lookup c := by
  intro s
  induction s with
  | nil =>
    by_cases hca : c = a
    · have hb : (c == a) = true := by simp [hca]
      simp [dictInsert, List.lookup, hb, hca]
    · have hb : (c == a) = false := by simp [hca]
      simp [dictInsert, List.lookup, hb, hca]
  | cons kv t ih =>
    obtain ⟨k', v'⟩ := kv
    simp only [dictInsert]
    by_cases hk : k' = a
    · subst hk
      have hb : (k' == k') = true := by simp
      simp only [hb, if_pos rfl]
      by_cases hc : c = k'
      · have hb2 : (c == k') = true := by simp [hc]
        simp [List.lookup, hb2, hc]
      · have hb2 : (c == k') = false := by simp [hc]
        simp [List.lookup, hb2, hc]
    · have hb : (k' == a) = false := by simp [hk]
      simp only [hb, Bool.false_eq_true, if_neg, ite_false]
      by_cases hc : c = k'
      · have hb2 : (c == k') = true := by simp [hc]
        have hca : ¬ c = a := by rw [hc]; exact hk
        simp [List.lookup, hb2, hca]
      · have hb2 : (c == k') = false := by simp [hc]
        simp [List.lookup, hb2, ih]

/-- One scan iteration never changes the record stored under an existing
key. -/
theorem scanStep_keep (env : Env) (s : Store) (a c : String) (r : PromoRecord)
    (h : s.lookup c = some r) : (scanStep env s a).lookup c = some r := by
  unfold scanStep
  split
  · exact h
  · rename_i hmem
    cases hchk : check_promo_url env a with
    | none => exact h
    | some r' =>
      rw [dictInsert_lookup]
      by_cases hca : c = a
      · subst hca
        rw [h] at hmem
        exact absurd rfl hmem
      · simp [hca, h]

/-- The scan loop never changes the record stored under an existing key. -/
theorem foldl_scanStep_keep (env : Env) (l : List String) :
    ∀ (s : Store) (c : String) (r : PromoRecord), s.lookup c = some r →
      (l.foldl (scanStep env) s).lookup c = some r := by
  induction l with
  | nil => intro s c r h; exact h
  | cons a t ih =>
    intro s c r h
    rw [List.foldl_cons]
    exact ih _ c r (scanStep_keep env s a c r h)

/-- Membership in the store after folding the scan step over a code list. -/
theorem foldl_scan_mem (env : Env) (l : List String) :
    ∀ (s : Store) (c : String),
      (((l.foldl (scanStep env) s).lookup c).isSome = true) ↔
        (((s.lookup c).isSome = true) ∨ (c ∈ l ∧ isPromoResp (env.fetch c) = true)) := by
  induction l with
  | nil => intro s c; simp
  | cons a t ih =>
    intro s c
    rw [List.foldl_cons, ih]
    by_cases hmem : (s.lookup a).isSome = true
    · have hs : scanStep env s a = s := by simp [scanStep, hmem]
      rw [hs]
      by_cases hca : c = a
      · subst hca; simp [hmem]
      · simp [List.mem_cons, hca]
    · cases hchk : check_promo_url env a with
      | none =>
        have hs : scanStep env s a = s := by
          unfold scanStep; rw [hchk]; split <;> rfl
        rw [hs]
        have hP : isPromoResp (env.fetch a) = false := by
          rw [← check_isSome env a, hchk]; rfl
        by_cases hca : c = a
        · subst hca; simp [hP]
        · simp [List.mem_cons, hca]
      | some r =>
        have hs : scanStep env s a = dictInsert a r s := by
          unfold scanStep
          rw [hchk]
          split
          · rename_i hm; exact absurd hm hmem
          · rfl
        rw [hs]
        have hP : isPromoResp (env.fetch a) = true := by
          rw [← check_isSome env a, hchk]; rfl
        by_cases hca : c = a
        · subst hca
          rw [dictInsert_lookup]
          simp [hP]
        · rw [dictInsert_lookup]
          simp [List.mem_cons, hca]

/-! ### The claims -/

set_option maxRecDepth 10000

/-- Claim C6: `generate_promo_codes` returns exactly 6 × 100 = 600
pairwise-distinct strings, ordered prefix-major (prefixes in the fixed
order AS23, CS23, AS24, CS24, AS25, CS25) and suffix-minor (zero-padded
suffixes 00 through 99 ascending within each prefix); as a pure function
it is deterministic on every call. The ordering is stated as the equation
with the canonical index-driven form. -/
theorem c6_generate_codes_spec :
    generate_promo_codes.length = 6 * 100 ∧
    generate_promo_codes.Nodup ∧
    generate_promo_codes =
      (List.range 600).map (fun i => prefixes.getD (i / 100) "" ++ pad2 (i % 100)) := by
  refine ⟨by decide, ?_, by decide⟩
  apply List.Nodup.of_map codeIndex
  have h : generate_promo_codes.map codeIndex = List.range 600 := by decide
  rw [h]
  exact List.nodup_range 600

/-- Claim C9: a fetch that raises or returns a non-200 status produces no
record, the scan step leaves any store unchanged, and the loop simply
moves on to the remaining codes. -/
theorem c9_failed_fetch_no_record (env : Env) (code : String)
    (h : env.fetch code = .err ∨
         ∃ st page, env.fetch code = .resp st page ∧ st ≠ 200) :
    check_promo_url env code = none ∧
    (∀ s : Store, scanStep env s code = s) ∧
    (∀ (s : Store) (rest : List String),
      (code :: rest).foldl (scanStep env) s = rest.foldl (scanStep env) s) := by
  have hc : check_promo_url env code = none := by
    rcases h with h | ⟨st, page, hf, hne⟩
    · simp [check_promo_url, h, check_resp]
    · have hb : (st == 200) = false := by simp [hne]
      simp [check_promo_url, hf, check_resp, hb]
  have hstep : ∀ s : Store, scanStep env s code = s := by
    intro s
    unfold scanStep
    rw [hc]
    split <;> rfl
  exact ⟨hc, hstep, fun s rest => by rw [List.foldl_cons, hstep s]⟩

/-- Claim C9 witness: the 404 scenario for code AS2399. -/
theorem c9_witness :
    check_promo_url envC9 "AS2399" = none ∧ scanStep envC9 [] "AS2399" = [] := by
  have h := c9_failed_fetch_no_record envC9 "AS2399"
    (Or.inr ⟨404, pageC9, rfl, by decide⟩)
  exact ⟨h.1, h.2.1 []⟩

/-- Claim C10: a zero `max_codes` bound is falsy, so it truncates nothing
and the scan behaves exactly as with no bound at all; likewise an empty
`start_from` string performs no slicing. -/
theorem c10_zero_max_codes_no_truncation :
    (∀ (env : Env) (sf : Option String) (s0 : Store),
      search_promos env (some 0) sf s0 = search_promos env none sf s0) ∧
    (∀ (env : Env) (mc : Option Int) (s0 : Store),
      search_promos env mc (some "") s0 = search_promos env mc none s0) := by
  constructor <;> intros <;> rfl

/-- Claim C1, as amended: when the page text carries an expiration phrase
but the date regex captures nothing and a structured-data end date parses
strictly into the future, the produced record has status `expired` — the
phrase alone sets the status at line 152, and the end-date loop of lines
159-181 can only set `expired`, never reset it to `active`. -/
theorem c1_amended_expired_phrase (env : Env) (code : String) (page : Page)
    (hf : env.fetch code = .resp 200 page)
    (hm : markerOk page.text = true)
    (hp : expiredPhrase page.text = true)
    (hc : expirationCapture page.text = none)
    (hfut : ∃ oj ∈ page.scripts, scriptFutureEndDate env oj = true) :
    ∃ r, check_promo_url env code = some r ∧ r.status = "expired" := by
  refine ⟨buildRecord env code page, ?_, ?_⟩
  · unfold check_promo_url
    rw [hf]
    simp [check_resp, hm]
  · have hst : (buildRecord env code page).status =
        (scanScripts env page.scripts ("expired", expirationCapture page.text)).1 := by
      simp [buildRecord, hp]
    rw [hst]
    exact scanScripts_status env page.scripts _ rfl

/-- Claim C1 is false as stated: on this concrete input every hypothesis
of the claim holds — the phrase `expired` appears, the date regex fails,
and the embedded end date parses strictly into the future — yet the
record's status is `expired`, not `active`. -/
theorem c1_counterexample :
    envC1.fetch "AS2300" = .resp 200 pageC1 ∧
    markerOk pageC1.text = true ∧
    expiredPhrase pageC1.text = true ∧
    expirationCapture pageC1.text = none ∧
    (∃ oj ∈ pageC1.scripts, scriptFutureEndDate envC1 oj = true) ∧
    (check_promo_url envC1 "AS2300").map PromoRecord.status = some "expired" ∧
    (check_promo_url envC1 "AS2300").map PromoRecord.status ≠ some "active" := by
  refine ⟨rfl, by decide, by decide, by decide, by decide, rfl, by decide⟩

/-- Claim C1 witness for the amended statement, at the counterexample
input. -/
theorem c1_amended_witness :
    ∃ r, check_promo_url envC1 "AS2300" = some r ∧ r.status = "expired" :=
  c1_amended_expired_phrase envC1 "AS2300" pageC1 rfl (by decide) (by decide)
    (by decide) (by decide)

/-- Claim C3: when the date regex captures `1/2/2024` on an expired valid
promo page and a structured-data end date also parses into the past, the
recorded `expiration_date` is the verbatim captured string — the end-date
loop of lines 174-175 only fills the field when it is still falsy. -/
theorem c3_explicit_date_precedence (env : Env) (code : String) (page : Page)
    (hf : env.fetch code = .resp 200 page)
    (hm : markerOk page.text = true)
    (hp : expiredPhrase page.text = true)
    (hc : expirationCapture page.text = some "1/2/2024")
    (hpast : ∃ oj ∈ page.scripts, scriptPastEndDate env oj = true) :
    ∃ r, check_promo_url env code = some r ∧
      r.expiration_date = some "1/2/2024" ∧ r.status = "expired" := by
  refine ⟨buildRecord env code page, ?_, ?_, ?_⟩
  · unfold check_promo_url
    rw [hf]
    simp [check_resp, hm]
  · have he : (buildRecord env code page).expiration_date =
        (scanScripts env page.scripts ("expired", some "1/2/2024")).2 := by
      simp [buildRecord, hp, hc]
    rw [he]
    exact scanScripts_keepExp env page.scripts _ (by decide)
  · have hst : (buildRecord env code page).status =
        (scanScripts env page.scripts ("expired", some "1/2/2024")).1 := by
      simp [buildRecord, hp, hc]
    rw [hst]
    exact scanScripts_status env page.scripts _ rfl

/-- Claim C3 witness: both signals present, the explicit capture wins over
the structured-data rendering `01/01/2020`. -/
theorem c3_witness :
    expirationCapture pageC3.text = some "1/2/2024" ∧
    (∃ oj ∈ pageC3.scripts, scriptPastEndDate envC3 oj = true) ∧
    ∃ r, check_promo_url envC3 "AS2302" = some r ∧
      r.expiration_date = some "1/2/2024" ∧ r.status = "expired" :=
  ⟨by decide, by decide,
   c3_explicit_date_precedence envC3 "AS2302" pageC3 rfl (by decide) (by decide)
     (by decide) (by decide)⟩

/-- Claim C4: a 200 response whose body mentions `mileage plan`, contains
no expiration phrase, and embeds the Acme structured-data block yields a
record with company name `Acme Corp` and status `active`. -/
theorem c4_acme_active_record (env : Env) (code : String) (page : Page)
    (hf : env.fetch code = .resp 200 page)
    (hm : containsStr "mileage plan" (lowerStr page.text) = true)
    (h1 : containsStr "promotion ended" (lowerStr page.text) = false)
    (h2 : containsStr "expired" (lowerStr page.text) = false)
    (hs : page.scripts = [some acmeJson]) :
    ∃ r, check_promo_url env code = some r ∧
      r.company_name = some (.str "Acme Corp") ∧ r.status = "active" := by
  have hmk : markerOk page.text = true := by simp [markerOk, hm]
  have hep : expiredPhrase page.text = false := by simp [expiredPhrase, h1, h2]
  refine ⟨buildRecord env code page, ?_, ?_, ?_⟩
  · unfold check_promo_url
    rw [hf]
    simp [check_resp, hmk]
  · have hcomp : (buildRecord env code page).company_name = extract_company_name page := rfl
    rw [hcomp]
    unfold extract_company_name
    rw [hs]
    rfl
  · have hst : (buildRecord env code page).status =
        (scanScripts env page.scripts ("active", none)).1 := by
      simp [buildRecord, hep]
    rw [hst, hs]
    rfl

/-- Claim C4 witness: the spec scenario instantiated. -/
theorem c4_witness :
    ∃ r, check_promo_url envC4 "AS2301" = some r ∧
      r.company_name = some (.str "Acme Corp") ∧ r.status = "active" :=
  c4_acme_active_record envC4 "AS2301" pageC4 rfl (by decide) (by decide)
    (by decide) rfl

/-- Claim C5: when the structured-data pass finds a truthy company name,
`extract_company_name` returns it even though the visible text also
matches an email-domain or university pattern — the three heuristics run
in the fixed order with the first success returned. -/
theorem c5_structured_data_priority (page : Page) (v : Json)
    (h1 : method1 page.scripts = .found v)
    (h2 : emailUnivMatch (lowerStr page.visible).toList = true) :
    extract_company_name page = some v := by
  unfold extract_company_name
  rw [h1]

/-- Claim C5 witness: a page carrying both the Acme structured-data block
and a matching `@acme.com` email pattern in its visible text. -/
theorem c5_witness :
    method1 pageC5.scripts = .found (.str "Acme Corp") ∧
    emailUnivMatch (lowerStr pageC5.visible).toList = true ∧
    extract_company_name pageC5 = some (.str "Acme Corp") :=
  ⟨rfl, by decide, c5_structured_data_priority pageC5 (.str "Acme Corp") rfl (by decide)⟩

/-- Claim C2: after a scan, a record exists for a code exactly when the
code was already recorded at scan start, or the code was in the scanned
sequence and its fetch came back 200 with a marker phrase; failed fetches,
non-200 statuses and marker-free bodies never enter the store. -/
theorem c2_store_membership_iff (env : Env) (mc : Option Int) (sf : Option String)
    (s0 : Store) (c : String) :
    (((search_promos env mc sf s0).lookup c).isSome = true) ↔
      (((s0.lookup c).isSome = true) ∨
        (c ∈ scannedCodes mc sf ∧ isPromoResp (env.fetch c) = true)) :=
  foldl_scan_mem env (scannedCodes mc sf) s0 c

/-- Claim C7: a scan never mutates the record stored under a code that was
already present when `search_promos` started — such codes are skipped
before any fetch, and fresh insertions only touch absent keys. -/
theorem c7_existing_records_unchanged (env : Env) (mc : Option Int)
    (sf : Option String) (s0 : Store) (c : String) (r : PromoRecord)
    (h : s0.lookup c = some r) :
    (search_promos env mc sf s0).lookup c = some r :=
  foldl_scanStep_keep env (scannedCodes mc sf) s0 c r h

/-- Claim C7 witness: AS2300 is already recorded, a bounded scan leaves
its record intact. -/
theorem c7_witness :
    storeC7.lookup "AS2300" = some recC7 ∧
    (search_promos envC7 (some 3) none storeC7).lookup "AS2300" = some recC7 :=
  ⟨rfl, c7_existing_records_unchanged envC7 (some 3) none storeC7 "AS2300" recC7 rfl⟩

/-- One record dict survives the serialise/parse round trip whenever its
company name is absent or a string. -/
theorem recordRoundTrip (r : PromoRecord) (h : companyIsStr r.company_name = true) :
    recordOfJson (recordToJson r) = some r := by
  obtain ⟨pc, u, cn, fd, st, ed⟩ := r
  cases cn with
  | none => cases ed <;> rfl
  | some v =>
    cases v with
    | str s => cases ed <;> rfl
    | null => exact absurd h (by simp [companyIsStr])
    | bool b => exact absurd h (by simp [companyIsStr])
    | num n => exact absurd h (by simp [companyIsStr])
    | arr xs => exact absurd h (by simp [companyIsStr])
    | obj fs => exact absurd h (by simp [companyIsStr])

/-- Claim C8: saving a store and loading the written file yields the same
mapping — same keys in the same order, identical field values — for every
store whose fields are strings or optional strings. -/
theorem c8_store_round_trip (s : Store)
    (h : ∀ kr ∈ s, companyIsStr kr.2.company_name = true) :
    load_results (save_results s) = some s := by
  induction s with
  | nil => rfl
  | cons kr t ih =>
    obtain ⟨k, r⟩ := kr
    have hr : companyIsStr r.company_name = true := h (k, r) (by simp)
    have ht : load_results (save_results t) = some t :=
      ih (fun x hx => h x (by simp [hx]))
    have ht' : decFields (t.map fun kv => (kv.1, recordToJson kv.2)) = some t := ht
    show decFields (((k, r) :: t).map fun kv => (kv.1, recordToJson kv.2)) =
      some ((k, r) :: t)
    rw [List.map_cons]
    simp only [decFields]
    rw [recordRoundTrip r hr, ht']

/-- Claim C8 witness: a one-record store with every optional field
populated survives the round trip. -/
theorem c8_witness :
    (∀ kr ∈ storeC8, companyIsStr kr.2.company_name = true) ∧
    load_results (save_results storeC8) = some storeC8 :=
  ⟨by decide, c8_store_round_trip storeC8 (by decide)⟩
